import Mathlib

/-!
Verification of the AD9959 DDS driver core of the stabilizer repository.

The definitions below are a shallow embedding of the Rust sources:
  - ad9959/src/lib.rs        (device driver, unit codecs, profile serializer)
  - src/hardware/pounder/mod.rs  (QSPI transport adapter)

Machine bytes and words are modelled as natural numbers with explicit
masking; f32 values are modelled as rationals (every numeric constant in
the relevant code paths is exactly representable in f32, and the scalings
are by powers of two, so the rational model is exact); fallible Rust code
returns Except; a Rust panic (out-of-bounds slice access) is modelled as
Option.none.
-/

set_option maxRecDepth 4096

/-- Decidable equality for Except, used to evaluate driver results on
concrete inputs. -/
instance {ε α : Type} [DecidableEq ε] [DecidableEq α] :
    DecidableEq (Except ε α) := fun x y =>
  match x, y with
  | .ok a, .ok b =>
    if h : a = b then .isTrue (by rw [h]) else .isFalse (by simp [h])
  | .error a, .error b =>
    if h : a = b then .isTrue (by rw [h]) else .isFalse (by simp [h])
  | .ok _, .error _ => .isFalse (fun h => Except.noConfusion h)
  | .error _, .ok _ => .isFalse (fun h => Except.noConfusion h)

namespace AD9959

/-- Communication modes of the DDS; the value equals the configuration
bits of the CSR register (enum Mode in ad9959/src/lib.rs). -/
inductive Mode
  | SingleBitTwoWire
  | SingleBitThreeWire
  | TwoBitSerial
  | FourBitSerial
deriving DecidableEq

/-- The numeric value of each Mode variant, as in the Rust repr(u8) enum. -/
def Mode.bits : Mode → ℕ
  | .SingleBitTwoWire => 0b000
  | .SingleBitThreeWire => 0b010
  | .TwoBitSerial => 0b100
  | .FourBitSerial => 0b110

/-- Channel bit flags (bitflags Channel in ad9959/src/lib.rs); a channel
set is a union of these values. -/
def Channel.ONE : ℕ := 0b00010000

def Channel.TWO : ℕ := 0b00100000

def Channel.THREE : ℕ := 0b01000000

def Channel.FOUR : ℕ := 0b10000000

def Channel.ALL : ℕ :=
  Channel.ONE ||| Channel.TWO ||| Channel.THREE ||| Channel.FOUR

/-- Configuration registers of the AD9959 (enum Register in
ad9959/src/lib.rs); the value of each register equals its address. -/
inductive Register
  | CSR | FR1 | FR2 | CFR | CFTW0 | CPOW0 | ACR | LSRR | RDW | FDW
  | CW1 | CW2 | CW3 | CW4 | CW5 | CW6 | CW7 | CW8 | CW9 | CW10
  | CW11 | CW12 | CW13 | CW14 | CW15
deriving DecidableEq

/-- Register addresses, matching the repr(u8) values of the Rust enum. -/
def Register.addr : Register → ℕ
  | .CSR => 0x00
  | .FR1 => 0x01
  | .FR2 => 0x02
  | .CFR => 0x03
  | .CFTW0 => 0x04
  | .CPOW0 => 0x05
  | .ACR => 0x06
  | .LSRR => 0x07
  | .RDW => 0x08
  | .FDW => 0x09
  | .CW1 => 0x0a
  | .CW2 => 0x0b
  | .CW3 => 0x0c
  | .CW4 => 0x0d
  | .CW5 => 0x0e
  | .CW6 => 0x0f
  | .CW7 => 0x10
  | .CW8 => 0x11
  | .CW9 => 0x12
  | .CW10 => 0x13
  | .CW11 => 0x14
  | .CW12 => 0x15
  | .CW13 => 0x16
  | .CW14 => 0x17
  | .CW15 => 0x18

/-- Errors generated by the AD9959 driver (enum Error in
ad9959/src/lib.rs). -/
inductive Error
  | Interface
  | Check
  | Bounds
  | Pin
  | Frequency
deriving DecidableEq

/-- The Rust saturating cast from f32 to u16 (the expression x as u16):
truncation toward zero, negative values clamp to 0, values at or above
65536 clamp to 65535. -/
def rustCastU16 (x : ℚ) : ℕ :=
  if x < 0 then 0 else min 65535 (Int.toNat (Int.floor x))

/-- Big-endian byte decomposition of a u32 (u32 to_be_bytes). -/
def be4 (x : ℕ) : List ℕ :=
  [(x >>> 24) &&& 0xFF, (x >>> 16) &&& 0xFF, (x >>> 8) &&& 0xFF, x &&& 0xFF]

/-- Big-endian byte decomposition of a u16 (u16 to_be_bytes). -/
def be2 (x : ℕ) : List ℕ :=
  [(x >>> 8) &&& 0xFF, x &&& 0xFF]

/-- The low three big-endian bytes of a u32, as produced by the Rust
expression x.to_be_bytes()[1..] at the ACR write sites. -/
def be3 (x : ℕ) : List ℕ :=
  [(x >>> 16) &&& 0xFF, (x >>> 8) &&& 0xFF, x &&& 0xFF]

/-- fn validate_clocking of ad9959/src/lib.rs, with the f32 arguments and
constants modelled exactly as rationals. -/
def validate_clocking (reference_clock_frequency : ℚ) (multiplier : ℕ) :
    Except Error ℚ :=
  if (multiplier ≠ 1 ∧ ¬(4 ≤ multiplier ∧ multiplier ≤ 20))
      ∨ (multiplier ≠ 1 ∧ reference_clock_frequency < 10000000)
      ∨ reference_clock_frequency < 1000000 then
    .error .Bounds
  else
    let frequency : ℚ := (multiplier : ℚ) * reference_clock_frequency
    if ¬((255000000 : ℚ) ≤ frequency ∧ frequency ≤ 500000000)
        ∧ ¬((100000000 : ℚ) ≤ frequency ∧ frequency ≤ 160000000)
        ∧ (multiplier ≠ 1 ∨ ¬((0 : ℚ) ≤ frequency ∧ frequency < 100000000))
    then
      .error .Frequency
    else
      .ok frequency

/-- fn frequency_to_ftw of ad9959/src/lib.rs. -/
def frequency_to_ftw (dds_frequency system_clock_frequency : ℚ) :
    Except Error ℕ :=
  if ¬((0 : ℚ) ≤ dds_frequency
      ∧ dds_frequency ≤ system_clock_frequency / 2) then
    .error .Bounds
  else
    .ok (min 4294967295
      (Int.toNat (Int.floor
        (dds_frequency / system_clock_frequency * 4294967296))))

/-- fn phase_to_pow of ad9959/src/lib.rs: multiply by 2 to the 14, cast to
u16 with Rust saturating semantics, and mask to the low 14 bits. -/
def phase_to_pow (phase_turns : ℚ) : Except Error ℕ :=
  .ok (rustCastU16 (phase_turns * 16384) &&& 16383)

/-- fn amplitude_to_acr of ad9959/src/lib.rs. -/
def amplitude_to_acr (amplitude : ℚ) : Except Error ℕ :=
  if ¬((0 : ℚ) ≤ amplitude ∧ amplitude ≤ 1) then
    .error .Bounds
  else
    let amplitude_control : ℕ := rustCastU16 (amplitude * 1024)
    let acr : ℕ :=
      if amplitude_control < 1024 then
        (amplitude_control &&& 0x3FF) ||| (1 <<< 12)
      else
        0
    .ok acr

/-- The amplitude decoding performed by Ad9959 get_amplitude on the three
ACR bytes it reads back: if bit 4 of the middle byte (bit 12 of the 24-bit
register value) is set, the low 10 bits divided by 1024, else full scale. -/
def acr_to_amplitude (b : List ℕ) : ℚ :=
  if Nat.testBit (b.getD 1 0) 4 then
    (((((b.getD 1 0) <<< 8) ||| b.getD 2 0) &&& 0x3FF : ℕ) : ℚ) / 1024
  else
    1

/-- bit_field set_bits on a u8: replace the w bits starting at position lo
by v (all call sites pass values that fit in the field). -/
def setBitRange (lo w : ℕ) (b v : ℕ) : ℕ :=
  (b &&& (0xFF ^^^ (((1 <<< w) - 1) <<< lo))) ||| ((v % (1 <<< w)) <<< lo)

/-- bit_field get_bits on a u8: the w bits starting at position lo. -/
def getBitRange (lo w : ℕ) (b : ℕ) : ℕ :=
  (b >>> lo) &&& ((1 <<< w) - 1)

/-- bit_field set_bit on a u8. -/
def setBitU8 (i : ℕ) (b : ℕ) (x : Bool) : ℕ :=
  if x then b ||| (1 <<< i) else b &&& (0xFF ^^^ (1 <<< i))

/-- The Interface trait of ad9959/src/lib.rs. Rust methods take mutable
self, so each operation returns the interface state next to its result;
the error type is opaque to the driver. -/
structure Interface (σ ε : Type) where
  configure_mode : σ → Mode → σ × Except ε Unit
  write : σ → ℕ → List ℕ → σ × Except ε Unit
  read : σ → ℕ → ℕ → σ × Except ε (List ℕ)

/-- The embedded_hal OutputPin operations used during construction. -/
structure OutputPin (ρ ε : Type) where
  set_low : ρ → ρ × Except ε Unit
  set_high : ρ → ρ × Except ε Unit

/-- The driver state held by struct Ad9959 apart from the owned interface:
reference clock frequency, system clock multiplier, communication mode. -/
structure Ad9959 where
  reference_clock_frequency : ℚ
  system_clock_multiplier : ℕ
  communication_mode : Mode

/-- fn read of impl Ad9959: delegate to the interface, mapping any
interface error to Error.Interface. -/
def ifcRead (I : Interface σ ε) (s : σ) (reg : Register) (n : ℕ) :
    σ × Except Error (List ℕ) :=
  match I.read s reg.addr n with
  | (s, .ok d) => (s, .ok d)
  | (s, .error _) => (s, .error .Interface)

/-- fn write of impl Ad9959: delegate to the interface, mapping any
interface error to Error.Interface. -/
def ifcWrite (I : Interface σ ε) (s : σ) (reg : Register) (data : List ℕ) :
    σ × Except Error Unit :=
  match I.write s reg.addr data with
  | (s, .ok _) => (s, .ok ())
  | (s, .error _) => (s, .error .Interface)

/-- fn system_clock_frequency of impl Ad9959. -/
def system_clock_frequency (d : Ad9959) : ℚ :=
  (d.system_clock_multiplier : ℚ) * d.reference_clock_frequency

/-- fn configure_system_clock of impl Ad9959. The driver state and the
interface state are returned next to the result because the Rust function
mutates self before it can fail. -/
def configure_system_clock (I : Interface σ ε) (d : Ad9959) (s : σ)
    (reference_clock_frequency : ℚ) (multiplier : ℕ) :
    Ad9959 × σ × Except Error ℚ :=
  match validate_clocking reference_clock_frequency multiplier with
  | .error e => (d, s, .error e)
  | .ok frequency =>
    let d := { d with reference_clock_frequency := reference_clock_frequency }
    match ifcRead I s .FR1 3 with
    | (s, .error e) => (d, s, .error e)
    | (s, .ok fr1) =>
      let b0 := setBitRange 2 5 (fr1.getD 0 0) multiplier
      let vco_range : Bool := decide ((200000000 : ℚ) < frequency)
      let b0 := setBitU8 7 b0 vco_range
      match ifcWrite I s .FR1 [b0, fr1.getD 1 0, fr1.getD 2 0] with
      | (s, .error e) => (d, s, .error e)
      | (s, .ok _) =>
        let d := { d with system_clock_multiplier := multiplier }
        (d, s, .ok (system_clock_frequency d))

/-- fn self_test of impl Ad9959: read and save CSR, set then clear all four
channel enable bits with read-back checks, restore CSR. -/
def self_test (I : Interface σ ε) (s : σ) : σ × Except Error Bool :=
  match ifcRead I s .CSR 1 with
  | (s, .error e) => (s, .error e)
  | (s, .ok csr) =>
    let old_csr := csr.getD 0 0
    let c1 := setBitRange 4 4 old_csr 0xF
    match ifcWrite I s .CSR [c1] with
    | (s, .error e) => (s, .error e)
    | (s, .ok _) =>
      match ifcRead I s .CSR 1 with
      | (s, .error e) => (s, .error e)
      | (s, .ok csr2) =>
        if getBitRange 4 4 (csr2.getD 0 0) ≠ 0xF then (s, .ok false)
        else
          let c2 := setBitRange 4 4 (csr2.getD 0 0) 0x0
          match ifcWrite I s .CSR [c2] with
          | (s, .error e) => (s, .error e)
          | (s, .ok _) =>
            match ifcRead I s .CSR 1 with
            | (s, .error e) => (s, .error e)
            | (s, .ok csr3) =>
              if getBitRange 4 4 (csr3.getD 0 0) ≠ 0 then (s, .ok false)
              else
                match ifcWrite I s .CSR [old_csr] with
                | (s, .error e) => (s, .error e)
                | (s, .ok _) => (s, .ok true)

/-- fn modify_channel of impl Ad9959: write CSR selecting only the target
channels under the current mode, then write the target register. -/
def modify_channel (I : Interface σ ε) (d : Ad9959) (s : σ)
    (channel : ℕ) (register : Register) (data : List ℕ) :
    σ × Except Error Unit :=
  let csr := d.communication_mode.bits ||| channel
  match ifcWrite I s .CSR [csr] with
  | (s, .error e) => (s, .error e)
  | (s, .ok _) =>
    match ifcWrite I s register data with
    | (s, .error e) => (s, .error e)
    | (s, .ok _) => (s, .ok ())

/-- fn read_channel of impl Ad9959: save CSR, write CSR selecting only the
target channels, read the register, write the saved CSR back. -/
def read_channel (I : Interface σ ε) (d : Ad9959) (s : σ)
    (channel : ℕ) (register : Register) (n : ℕ) :
    σ × Except Error (List ℕ) :=
  match ifcRead I s .CSR 1 with
  | (s, .error e) => (s, .error e)
  | (s, .ok csr) =>
    let new_csr := d.communication_mode.bits ||| channel
    match ifcWrite I s .CSR [new_csr] with
    | (s, .error e) => (s, .error e)
    | (s, .ok _) =>
      match ifcRead I s register n with
      | (s, .error e) => (s, .error e)
      | (s, .ok data) =>
        match ifcWrite I s .CSR csr with
        | (s, .error e) => (s, .error e)
        | (s, .ok _) => (s, .ok data)

/-- fn new of impl Ad9959 (the construction state machine). Pin failures
map to Error.Pin, interface failures to Error.Interface, a CSR read-back
mismatch to Error.Check; the microsecond delays are pure waits with no
observable effect in this model. -/
def new (I : Interface σ ε) (s : σ)
    (RP : OutputPin ρ ε₁) (rp : ρ) (UP : OutputPin υ ε₂) (up : υ)
    (desired_mode : Mode) (clock_frequency : ℚ) (multiplier : ℕ) :
    Except Error (Ad9959 × σ × ρ × υ) :=
  let d : Ad9959 :=
    { reference_clock_frequency := clock_frequency
      system_clock_multiplier := 1
      communication_mode := desired_mode }
  match UP.set_low up with
  | (_, .error _) => .error .Pin
  | (up, .ok _) =>
    match RP.set_high rp with
    | (_, .error _) => .error .Pin
    | (rp, .ok _) =>
      match RP.set_low rp with
      | (_, .error _) => .error .Pin
      | (rp, .ok _) =>
        match I.configure_mode s Mode.SingleBitTwoWire with
        | (_, .error _) => .error .Interface
        | (s, .ok _) =>
          let csr := Channel.ALL ||| desired_mode.bits
          match ifcWrite I s .CSR [csr] with
          | (_, .error e) => .error e
          | (s, .ok _) =>
            match UP.set_high up with
            | (_, .error _) => .error .Pin
            | (up, .ok _) =>
              match UP.set_low up with
              | (_, .error _) => .error .Pin
              | (up, .ok _) =>
                match I.configure_mode s desired_mode with
                | (_, .error _) => .error .Interface
                | (s, .ok _) =>
                  match ifcRead I s .CSR 1 with
                  | (_, .error e) => .error e
                  | (s, .ok updated_csr) =>
                    if updated_csr.getD 0 0 ≠ csr then .error .Check
                    else
                      match configure_system_clock I d s
                          clock_frequency multiplier with
                      | (_, _, .error e) => .error e
                      | (d, s, .ok _) =>
                        match UP.set_high up with
                        | (_, .error _) => .error .Pin
                        | (up, .ok _) =>
                          match UP.set_low up with
                          | (_, .error _) => .error .Pin
                          | (up, .ok _) => .ok (d, s, rp, up)

/-- State of an ideal echoing transport: the value last written to each
register address. -/
def EchoState : Type := ℕ → List ℕ

/-- Pointwise update of an echo store at one address. -/
def echoUpd (s : EchoState) (a : ℕ) (d : List ℕ) : EchoState :=
  fun x => if x = a then d else s x

/-- A transport that faithfully echoes writes: every read returns the
value last written to that address and no operation fails. -/
def echoIfc : Interface EchoState Empty :=
  { configure_mode := fun s _ => (s, .ok ())
    write := fun s a d => (echoUpd s a d, .ok ())
    read := fun s a _ => (s, .ok (s a)) }

/-- A transport whose operations all succeed but whose reads always
return the fixed byte b (fault injection at the read-back step). -/
def constReadIfc (b : ℕ) : Interface Unit Unit :=
  { configure_mode := fun s _ => (s, .ok ())
    write := fun s _ _ => (s, .ok ())
    read := fun s _ n => (s, .ok (List.replicate n b)) }

/-- A transport whose reads fail and whose other operations succeed. -/
def readFailIfc : Interface Unit Unit :=
  { configure_mode := fun s _ => (s, .ok ())
    write := fun s _ _ => (s, .ok ())
    read := fun s _ _ => (s, .error ()) }

/-- A transport whose writes fail and whose reads succeed with zeros. -/
def writeFailIfc : Interface Unit Unit :=
  { configure_mode := fun s _ => (s, .ok ())
    write := fun s _ _ => (s, .error ())
    read := fun s _ n => (s, .ok (List.replicate n 0)) }

/-- A digital output pin whose operations always succeed. -/
def okPin : OutputPin Unit Unit :=
  { set_low := fun p => (p, .ok ())
    set_high := fun p => (p, .ok ()) }

/-- A digital output pin whose set_high operation fails. -/
def failHighPin : OutputPin Unit Unit :=
  { set_low := fun p => (p, .ok ())
    set_high := fun p => (p, .error ()) }

/-- A digital output pin whose set_low operation fails. -/
def failLowPin : OutputPin Unit Unit :=
  { set_low := fun p => (p, .error ())
    set_high := fun p => (p, .ok ()) }

/-- The fixed-capacity batch builder (struct ProfileSerializer of
ad9959/src/lib.rs): a 32-byte buffer, a write cursor, and the mode used
for CSR encoding (stored widened to u32 in the source). -/
structure ProfileSerializer where
  data : List ℕ
  index : ℕ
  mode : ℕ

/-- fn new of impl ProfileSerializer. -/
def ProfileSerializer.new (mode : Mode) : ProfileSerializer :=
  { mode := mode.bits, data := List.replicate 32 0, index := 0 }

/-- Byte-wise store of a value into a list starting at position i,
modelling copy_from_slice into an in-bounds subslice. -/
def writeBytes : List ℕ → ℕ → List ℕ → List ℕ
  | l, _, [] => l
  | l, i, b :: bs => writeBytes (l.set i b) (i + 1) bs

/-- fn add_write of impl ProfileSerializer. The source takes the slice of
data starting at index, stores the register address at its position 0 and
the value at positions 1.., and advances the cursor; each slice operation
is bounds checked by Rust and a failed check is a panic, modelled as
none. -/
def ProfileSerializer.add_write (ps : ProfileSerializer)
    (register : Register) (value : List ℕ) : Option ProfileSerializer :=
  if 32 < ps.index then
    none
  else if 32 - ps.index < 1 then
    none
  else if 32 - ps.index - 1 < value.length then
    none
  else
    some { ps with
      data := writeBytes (ps.data.set ps.index register.addr)
        (ps.index + 1) value
      index := ps.index + value.length + 1 }

/-- fn update_channels of impl ProfileSerializer: a CSR record selecting
the channels under the stored mode, then one record for each supplied
machine word (CFTW0 big endian 4 bytes, CPOW0 big endian 2 bytes, ACR low
3 big endian bytes). -/
def ProfileSerializer.update_channels (ps : ProfileSerializer)
    (channels : ℕ) (ftw pow acr : Option ℕ) : Option ProfileSerializer := do
  let ps ← ps.add_write .CSR [(ps.mode % 256) ||| channels]
  let ps ← match ftw with
    | some f => ps.add_write .CFTW0 (be4 f)
    | none => pure ps
  let ps ← match pow with
    | some p => ps.add_write .CPOW0 (be2 p)
    | none => pure ps
  match acr with
    | some a => ps.add_write .ACR (be3 a)
    | none => pure ps

/-- fn set_system_clock of impl ProfileSerializer: build an FR1 payload
with the multiplier in bits 2 to 6 and the VCO range bit at position 7,
append an FR1 record, return the effective frequency (no validation). -/
def ProfileSerializer.set_system_clock (ps : ProfileSerializer)
    (reference_clock_frequency : ℚ) (multiplier : ℕ) :
    Option (ProfileSerializer × ℚ) :=
  let frequency : ℚ := reference_clock_frequency * multiplier
  let b0 := setBitRange 2 5 0 multiplier
  let b0 := setBitU8 7 b0 (decide ((200000000 : ℚ) < frequency))
  (ps.add_write .FR1 [b0, 0, 0]).map fun ps => (ps, frequency)

/-- fn pad of impl ProfileSerializer: append a dummy LSRR record (3 bytes)
if the cursor is odd, then a dummy CSR record (2 bytes) if bit 1 of the
cursor is still set. -/
def ProfileSerializer.pad (ps : ProfileSerializer) :
    Option ProfileSerializer := do
  let ps ← if ps.index &&& 1 ≠ 0 then ps.add_write .LSRR [0, 0] else pure ps
  if ps.index &&& 2 ≠ 0 then ps.add_write .CSR [ps.mode % 256] else pure ps

/-- fn finalize of impl ProfileSerializer: pad, then hand off the first
index bytes of the buffer (the source reinterprets them in place as u32
words; the byte level view is returned here). -/
def ProfileSerializer.finalize (ps : ProfileSerializer) :
    Option (List ℕ) :=
  (ps.pad).map fun ps => ps.data.take ps.index

/-- Reinterpretation of a byte sequence as 32-bit words on the
little-endian target, as performed by bytemuck cast_slice in finalize. -/
def toWordsLE : List ℕ → List ℕ
  | a :: b :: c :: d :: rest =>
    (a ||| (b <<< 8) ||| (c <<< 16) ||| (d <<< 24)) :: toWordsLE rest
  | _ => []

end AD9959

namespace Pounder

/-- Errors of the pounder hardware module (enum Error in
src/hardware/pounder/mod.rs); the Qspi variant carries an opaque
peripheral error. -/
inductive Error
  | Spi
  | I2c
  | Qspi
  | Bounds
  | InvalidAddress
  | InvalidChannel
  | Adc
  | InvalidState
deriving DecidableEq

/-- The state of struct QspiInterface that the write path depends on: the
configured DDS communication mode and the streaming flag. -/
structure QspiInterface where
  mode : AD9959.Mode
  streaming : Bool

/-- One iteration of the bit-encoding loops in QspiInterface write: place
logical bit number bit of byte b into the expansion buffer at byte
position base + (3 - bit / 2), at bit offset 4 for odd bit numbers and 0
for even ones. -/
def encodeNarrowStep (b base : ℕ) (buf : List ℕ) (bit : ℕ) : List ℕ :=
  let offset : ℕ := if bit % 2 ≠ 0 then 4 else 0
  let bytePosition := base + (3 - bit / 2)
  if b &&& (1 <<< bit) ≠ 0 then
    buf.set bytePosition (buf.getD bytePosition 0 ||| (1 <<< offset))
  else
    buf

/-- The 8-iteration bit loop of QspiInterface write for one source byte. -/
def encodeNarrowByte (b base : ℕ) (buf : List ℕ) : List ℕ :=
  (List.range 8).foldl (encodeNarrowStep b base) buf

/-- The full narrow-mode expansion buffer of QspiInterface write: the
address encoded into the first 4 bytes, then each data byte encoded into
the next 4 bytes of the fixed 12-byte buffer. -/
def qspiEncode (addr : ℕ) (data : List ℕ) : List ℕ :=
  let buf := List.replicate 12 0
  let buf := encodeNarrowByte addr 0 buf
  (List.range data.length).foldl
    (fun buf i => encodeNarrowByte (data.getD i 0) ((i + 1) * 4) buf) buf

/-- fn write of impl ad9959 Interface for QspiInterface. A successful
write returns the address byte and payload handed to the QSPI peripheral
(the peripheral itself is assumed to accept the transfer). -/
def QspiInterface.write (st : QspiInterface) (addr : ℕ) (data : List ℕ) :
    Except Error (ℕ × List ℕ) :=
  if addr &&& 0x80 ≠ 0 then
    .error .InvalidAddress
  else
    match st.mode with
    | .SingleBitTwoWire =>
      if 12 - 4 < data.length * 4 then
        .error .Bounds
      else
        let encoded_data := qspiEncode addr data
        let end_index := (1 + data.length) * 4
        .ok (encoded_data.getD 0 0,
          (encoded_data.drop 1).take (end_index - 1))
    | .FourBitSerial =>
      if st.streaming then .error .InvalidState else .ok (addr, data)
    | _ => .error .InvalidState

/-- The nibble sequence of a byte list as sent on a 4-bit bus, high nibble
of each byte first. -/
def nibbleSeq (l : List ℕ) : List ℕ :=
  l.flatMap fun b => [(b >>> 4) &&& 0xF, b &&& 0xF]

/-- The logical bit sequence of a byte list, most significant bit of each
byte first, each bit as the value 0 or 1. -/
def msbBitSeq (l : List ℕ) : List ℕ :=
  l.flatMap fun b =>
    (List.range 8).map fun k => if b &&& (1 <<< (7 - k)) ≠ 0 then 1 else 0

end Pounder

namespace AD9959

/-- C1: validate_clocking fails with Bounds unless the multiplier is 1 or
in 4..20, the reference is at least 10 MHz when the multiplier is not 1,
and the reference is at least 1 MHz; otherwise it fails with Frequency
unless the effective frequency lies in one of the two VCO bands or the
multiplier is 1 with the effective frequency below 100 MHz; otherwise it
returns the effective frequency. In particular 25 MHz times 4 is accepted
as 100 MHz and 25 MHz times 7 is rejected with Frequency. -/
theorem claim1_validate_clocking :
    (∀ (r : ℚ) (m : ℕ),
      (validate_clocking r m = .error .Bounds ↔
        ¬((m = 1 ∨ (4 ≤ m ∧ m ≤ 20)) ∧ (m ≠ 1 → (10000000 : ℚ) ≤ r)
          ∧ (1000000 : ℚ) ≤ r)) ∧
      (validate_clocking r m = .error .Frequency ↔
        ((m = 1 ∨ (4 ≤ m ∧ m ≤ 20)) ∧ (m ≠ 1 → (10000000 : ℚ) ≤ r)
          ∧ (1000000 : ℚ) ≤ r) ∧
        ¬(((255000000 : ℚ) ≤ m * r ∧ (m : ℚ) * r ≤ 500000000)
          ∨ ((100000000 : ℚ) ≤ m * r ∧ (m : ℚ) * r ≤ 160000000)
          ∨ (m = 1 ∧ (0 : ℚ) ≤ m * r ∧ (m : ℚ) * r < 100000000))) ∧
      (validate_clocking r m = .ok ((m : ℚ) * r) ↔
        ((m = 1 ∨ (4 ≤ m ∧ m ≤ 20)) ∧ (m ≠ 1 → (10000000 : ℚ) ≤ r)
          ∧ (1000000 : ℚ) ≤ r) ∧
        (((255000000 : ℚ) ≤ m * r ∧ (m : ℚ) * r ≤ 500000000)
          ∨ ((100000000 : ℚ) ≤ m * r ∧ (m : ℚ) * r ≤ 160000000)
          ∨ (m = 1 ∧ (0 : ℚ) ≤ m * r ∧ (m : ℚ) * r < 100000000))))
    ∧ validate_clocking 25000000 4 = .ok 100000000
    ∧ validate_clocking 25000000 7 = .error .Frequency := by
  refine ⟨fun r m => ?_, by norm_num [validate_clocking], by norm_num [validate_clocking]⟩
  have hB : ((m ≠ 1 ∧ ¬(4 ≤ m ∧ m ≤ 20)) ∨ (m ≠ 1 ∧ r < 10000000)
      ∨ r < 1000000) ↔
      ¬((m = 1 ∨ (4 ≤ m ∧ m ≤ 20)) ∧ (m ≠ 1 → (10000000 : ℚ) ≤ r)
        ∧ (1000000 : ℚ) ≤ r) := by
    constructor
    · rintro (⟨h1, h2⟩ | ⟨h1, h2⟩ | h) ⟨g1, g2, g3⟩
      · exact h2 (g1.resolve_left h1)
      · exact absurd (g2 h1) (not_le.mpr h2)
      · exact absurd g3 (not_le.mpr h)
    · intro hg
      by_cases hm : m = 1
      · by_cases hr : r < 1000000
        · exact Or.inr (Or.inr hr)
        · exact absurd ⟨Or.inl hm, fun hmm => absurd hm hmm, not_lt.mp hr⟩ hg
      · by_cases h4 : 4 ≤ m ∧ m ≤ 20
        · by_cases hr : r < 10000000
          · exact Or.inr (Or.inl ⟨hm, hr⟩)
          · refine Or.inr (Or.inr ?_)
            by_contra hr6
            exact hg ⟨Or.inr h4, fun _ => not_lt.mp hr, not_lt.mp hr6⟩
        · exact Or.inl ⟨hm, h4⟩
  have hF : (¬((255000000 : ℚ) ≤ m * r ∧ (m : ℚ) * r ≤ 500000000)
      ∧ ¬((100000000 : ℚ) ≤ m * r ∧ (m : ℚ) * r ≤ 160000000)
      ∧ (m ≠ 1 ∨ ¬((0 : ℚ) ≤ m * r ∧ (m : ℚ) * r < 100000000))) ↔
      ¬(((255000000 : ℚ) ≤ m * r ∧ (m : ℚ) * r ≤ 500000000)
        ∨ ((100000000 : ℚ) ≤ m * r ∧ (m : ℚ) * r ≤ 160000000)
        ∨ (m = 1 ∧ (0 : ℚ) ≤ m * r ∧ (m : ℚ) * r < 100000000)) := by
    constructor
    · rintro ⟨h1, h2, h3⟩ (g | g | ⟨gm, g⟩)
      · exact h1 g
      · exact h2 g
      · exact h3.elim (fun h => h gm) (fun h => h g)
    · intro hg
      refine ⟨fun h => hg (Or.inl h), fun h => hg (Or.inr (Or.inl h)), ?_⟩
      by_cases hm : m = 1
      · exact Or.inr fun h => hg (Or.inr (Or.inr ⟨hm, h⟩))
      · exact Or.inl hm
  have hval : validate_clocking r m =
      if (m ≠ 1 ∧ ¬(4 ≤ m ∧ m ≤ 20)) ∨ (m ≠ 1 ∧ r < 10000000)
          ∨ r < 1000000 then
        (.error .Bounds : Except Error ℚ)
      else if ¬((255000000 : ℚ) ≤ m * r ∧ (m : ℚ) * r ≤ 500000000)
          ∧ ¬((100000000 : ℚ) ≤ m * r ∧ (m : ℚ) * r ≤ 160000000)
          ∧ (m ≠ 1 ∨ ¬((0 : ℚ) ≤ m * r ∧ (m : ℚ) * r < 100000000)) then
        .error .Frequency
      else
        .ok ((m : ℚ) * r) := rfl
  rw [hval]
  by_cases hg1 : (m ≠ 1 ∧ ¬(4 ≤ m ∧ m ≤ 20)) ∨ (m ≠ 1 ∧ r < 10000000)
      ∨ r < 1000000
  · rw [if_pos hg1]
    have hnB := hB.mp hg1
    exact ⟨iff_of_true rfl hnB,
      iff_of_false (fun h => Error.noConfusion (Except.error.inj h))
        (fun h => hnB h.1),
      iff_of_false (fun h => Except.noConfusion h) (fun h => hnB h.1)⟩
  · rw [if_neg hg1]
    have hBp : ((m = 1 ∨ (4 ≤ m ∧ m ≤ 20)) ∧ (m ≠ 1 → (10000000 : ℚ) ≤ r)
        ∧ (1000000 : ℚ) ≤ r) := by
      by_contra hb
      exact hg1 (hB.mpr hb)
    by_cases hg2 : ¬((255000000 : ℚ) ≤ m * r ∧ (m : ℚ) * r ≤ 500000000)
        ∧ ¬((100000000 : ℚ) ≤ m * r ∧ (m : ℚ) * r ≤ 160000000)
        ∧ (m ≠ 1 ∨ ¬((0 : ℚ) ≤ m * r ∧ (m : ℚ) * r < 100000000))
    · rw [if_pos hg2]
      have hnF := hF.mp hg2
      exact ⟨iff_of_false (fun h => Error.noConfusion (Except.error.inj h))
          (fun h => h hBp),
        iff_of_true rfl ⟨hBp, hnF⟩,
        iff_of_false (fun h => Except.noConfusion h) (fun h => hnF h.2)⟩
    · rw [if_neg hg2]
      have hFp : (((255000000 : ℚ) ≤ m * r ∧ (m : ℚ) * r ≤ 500000000)
          ∨ ((100000000 : ℚ) ≤ m * r ∧ (m : ℚ) * r ≤ 160000000)
          ∨ (m = 1 ∧ (0 : ℚ) ≤ m * r ∧ (m : ℚ) * r < 100000000)) := by
        by_contra hf
        exact hg2 (hF.mpr hf)
      exact ⟨iff_of_false (fun h => Except.noConfusion h) (fun h => h hBp),
        iff_of_false (fun h => Except.noConfusion h) (fun h => h.2 hFp),
        iff_of_true rfl ⟨hBp, hFp⟩⟩

end AD9959

namespace AD9959

/-- C4 counterexample: at turns = -1/2 the code does not return the floor
of turns times 2 to the 14 masked to the low 14 bits (which would be 8192,
wrapping modulo one turn); the Rust saturating f32-to-u16 cast clamps the
negative product to 0 instead. -/
theorem claim4_counterexample :
    phase_to_pow (-(1/2) : ℚ) ≠
      .ok (((Int.floor ((-(1/2) : ℚ) * 16384)) % 16384).toNat) := by
  have h1 : phase_to_pow (-(1/2) : ℚ) = .ok 0 := by
    unfold phase_to_pow rustCastU16
    norm_num
  have h2 : (Int.floor ((-(1/2) : ℚ) * 16384)) = -8192 := by norm_num
  rw [h1, h2]
  decide

/-- C4 amended: phase_to_pow always succeeds; for turns in [0, 4) it
returns the floor of turns times 2 to the 14 reduced modulo 2 to the 14
(so such inputs wrap modulo one turn), but negative inputs saturate to 0
and inputs at or above 4 turns saturate to 0x3FFF, instead of wrapping. -/
theorem claim4_phase_to_pow :
    ∀ t : ℚ,
      (∃ p, phase_to_pow t = .ok p) ∧
      (0 ≤ t → t < 4 → phase_to_pow t =
        .ok ((Int.toNat (Int.floor (t * 16384))) % 16384)) ∧
      (t < 0 → phase_to_pow t = .ok 0) ∧
      (4 ≤ t → phase_to_pow t = .ok 16383) := by
  intro t
  refine ⟨⟨_, rfl⟩, ?_, ?_, ?_⟩
  · intro h0 h4
    unfold phase_to_pow rustCastU16
    rw [if_neg (not_lt.mpr (by positivity : (0 : ℚ) ≤ t * 16384))]
    have hlt : Int.floor (t * 16384) < 65536 := by
      apply Int.floor_lt.mpr
      push_cast
      nlinarith
    have hge : (0 : ℤ) ≤ Int.floor (t * 16384) :=
      Int.floor_nonneg.mpr (by positivity)
    rw [min_eq_right (by omega)]
    have hmask := Nat.and_pow_two_sub_one_eq_mod
      (Int.toNat (Int.floor (t * 16384))) 14
    norm_num at hmask
    rw [hmask]
  · intro hneg
    unfold phase_to_pow rustCastU16
    rw [if_pos (by nlinarith : t * 16384 < 0)]
    decide
  · intro h4
    unfold phase_to_pow rustCastU16
    rw [if_neg (not_lt.mpr (by nlinarith : (0 : ℚ) ≤ t * 16384))]
    have hge : (65536 : ℤ) ≤ Int.floor (t * 16384) := by
      apply Int.le_floor.mpr
      push_cast
      nlinarith
    rw [min_eq_left (by omega)]
    decide

/-- C4 witness: at 3/2 turns the amended theorem applies and the result
wraps modulo one turn. -/
theorem claim4_witness :
    phase_to_pow (3/2 : ℚ) =
      .ok ((Int.toNat (Int.floor ((3/2 : ℚ) * 16384))) % 16384) :=
  (claim4_phase_to_pow (3/2)).2.1 (by norm_num) (by norm_num)

end AD9959

namespace AD9959

/-- Element 1 of a three-element list via getD. -/
theorem getD1 (x0 x1 x2 d : ℕ) : [x0, x1, x2].getD 1 d = x1 := rfl

/-- Element 2 of a three-element list via getD. -/
theorem getD2 (x0 x1 x2 d : ℕ) : [x0, x1, x2].getD 2 d = x2 := rfl

/-- Masking a natural number below 1024 with the low ten bits is the
identity. -/
theorem and_1023_of_lt (n : ℕ) (h : n < 1024) : n &&& 1023 = n := by
  have hm := Nat.and_pow_two_sub_one_eq_mod n 10
  norm_num at hm
  rw [hm]
  exact Nat.mod_eq_of_lt h

/-- For every ten-bit code, the ACR byte image produced by the encoder has
the amplitude-multiplier bit visible as bit 4 of the middle byte, and the
decoder recovers the code from the low ten bits of the low two bytes. -/
theorem acr_decode_bits : ∀ ac, ac < 1024 →
    (Nat.testBit (((ac ||| (1 <<< 12)) >>> 8) &&& 255) 4 = true ∧
      ((((((ac ||| (1 <<< 12)) >>> 8) &&& 255) <<< 8)
        ||| ((ac ||| (1 <<< 12)) &&& 255)) &&& 1023) = ac) := by decide

/-- C7: over [0, 1], encoding an amplitude and decoding the three
transmitted ACR bytes recovers the amplitude within 1/1024; a code below
1024 is packed into the low ten bits with bit 12 set, amplitude 1 maps to
ACR value 0 exactly; decoding yields exactly 1 when bit 12 is clear and
the low ten bits over 1024 when it is set. -/
theorem claim7_amplitude_roundtrip :
    (∀ a : ℚ, 0 ≤ a → a ≤ 1 →
      ∃ acr, amplitude_to_acr a = .ok acr ∧
        |acr_to_amplitude (be3 acr) - a| ≤ 1/1024 ∧
        (Int.toNat (Int.floor (a * 1024)) < 1024 →
          acr = (Int.toNat (Int.floor (a * 1024))) ||| (1 <<< 12)) ∧
        (a = 1 → acr = 0)) ∧
    (∀ b0 b1 b2 : ℕ,
      (Nat.testBit b1 4 = false → acr_to_amplitude [b0, b1, b2] = 1) ∧
      (Nat.testBit b1 4 = true →
        acr_to_amplitude [b0, b1, b2] =
          ((((b1 <<< 8) ||| b2) &&& 1023 : ℕ) : ℚ) / 1024)) := by
  constructor
  · intro a h0 h1
    have hcond : ¬¬((0 : ℚ) ≤ a ∧ a ≤ 1) := not_not_intro ⟨h0, h1⟩
    have hcast : rustCastU16 (a * 1024) = Int.toNat (Int.floor (a * 1024)) := by
      unfold rustCastU16
      rw [if_neg (not_lt.mpr (by positivity : (0 : ℚ) ≤ a * 1024))]
      have hfle : Int.floor (a * 1024) ≤ 1024 := by
        have : a * 1024 ≤ 1024 := by nlinarith
        calc Int.floor (a * 1024) ≤ Int.floor (1024 : ℚ) :=
              Int.floor_le_floor this
          _ = 1024 := by norm_num
      exact min_eq_right (by omega)
    by_cases hlt : a < 1
    · have hflt : Int.floor (a * 1024) < 1024 := by
        apply Int.floor_lt.mpr
        push_cast
        nlinarith
      have hfge : (0 : ℤ) ≤ Int.floor (a * 1024) :=
        Int.floor_nonneg.mpr (by positivity)
      set n : ℕ := Int.toNat (Int.floor (a * 1024)) with hn
      have hnlt : n < 1024 := by omega
      have henc : amplitude_to_acr a = .ok (n ||| (1 <<< 12)) := by
        unfold amplitude_to_acr
        rw [if_neg hcond]
        show Except.ok (if rustCastU16 (a * 1024) < 1024 then
          (rustCastU16 (a * 1024) &&& 1023) ||| (1 <<< 12) else 0) = _
        rw [hcast, if_pos hnlt, and_1023_of_lt n hnlt]
      refine ⟨n ||| (1 <<< 12), henc, ?_, fun _ => rfl, fun he => absurd he (by
        intro he; rw [he] at hlt; exact lt_irrefl 1 hlt)⟩
      have hdec : acr_to_amplitude (be3 (n ||| (1 <<< 12))) = (n : ℚ) / 1024 := by
        unfold acr_to_amplitude be3
        rw [getD1, getD2]
        rw [if_pos (acr_decode_bits n hnlt).1, (acr_decode_bits n hnlt).2]
      rw [hdec]
      have hle : (n : ℚ) ≤ a * 1024 := by
        have := Int.floor_le (a * 1024)
        have hcastn : ((n : ℤ) : ℚ) = ((Int.floor (a * 1024) : ℤ) : ℚ) := by
          rw [hn, Int.toNat_of_nonneg hfge]
        push_cast at hcastn ⊢
        linarith [this, hcastn.le, hcastn.ge]
      have hgt : a * 1024 < (n : ℚ) + 1 := by
        have := Int.lt_floor_add_one (a * 1024)
        have hcastn : ((n : ℤ) : ℚ) = ((Int.floor (a * 1024) : ℤ) : ℚ) := by
          rw [hn, Int.toNat_of_nonneg hfge]
        push_cast at hcastn ⊢
        linarith [this, hcastn.le, hcastn.ge]
      rw [abs_le]
      constructor <;> nlinarith
    · have ha1 : a = 1 := le_antisymm h1 (not_lt.mp hlt)
      subst ha1
      have hfl : Int.floor ((1 : ℚ) * 1024) = 1024 := by norm_num
      have henc : amplitude_to_acr 1 = .ok 0 := by
        unfold amplitude_to_acr
        rw [if_neg hcond]
        show Except.ok (if rustCastU16 (1 * 1024) < 1024 then
          (rustCastU16 (1 * 1024) &&& 1023) ||| (1 <<< 12) else 0) = _
        rw [hcast, hfl]
        norm_num
      refine ⟨0, henc, ?_, ?_, fun _ => rfl⟩
      · have hdec : acr_to_amplitude (be3 0) = 1 := by
          unfold acr_to_amplitude be3
          rw [getD1]
          norm_num
        rw [hdec]
        norm_num
      · intro hlt1024
        rw [hfl] at hlt1024
        norm_num at hlt1024
  · intro b0 b1 b2
    constructor
    · intro h
      unfold acr_to_amplitude
      rw [getD1]
      rw [if_neg (by rw [h]; exact Bool.false_ne_true)]
    · intro h
      unfold acr_to_amplitude
      rw [getD1, getD2]
      rw [if_pos h]

/-- C7 witness: the round trip theorem applied at amplitude 1/2. -/
theorem claim7_witness :
    ∃ acr, amplitude_to_acr (1/2 : ℚ) = .ok acr ∧
      |acr_to_amplitude (be3 acr) - (1/2 : ℚ)| ≤ 1/1024 ∧
      (Int.toNat (Int.floor ((1/2 : ℚ) * 1024)) < 1024 →
        acr = (Int.toNat (Int.floor ((1/2 : ℚ) * 1024))) ||| (1 <<< 12)) ∧
      ((1/2 : ℚ) = 1 → acr = 0) :=
  claim7_amplitude_roundtrip.1 (1/2) (by norm_num) (by norm_num)

end AD9959

namespace AD9959

/-- C2 counterexample: in the worked example the serialized profile is 12
bytes (three 32-bit words), not the 8 bytes (two words) the claim states;
the CSR record is two bytes (address plus value), so the records occupy 7
bytes and the padding rule appends an LSRR record (3 bytes) and a CSR
record (2 bytes). -/
theorem claim2_counterexample :
    ((((ProfileSerializer.new .FourBitSerial).update_channels Channel.ONE
        (some 0x12345678) none none).bind
        ProfileSerializer.finalize).map List.length) = some 12 ∧
      (12 : ℕ) ≠ 8 :=
  ⟨rfl, by decide⟩

/-- C2 amended: for every mode, the example batch serializes to the CSR
record, the CFTW0 record with big-endian payload 12 34 56 78, an LSRR pad
record and a CSR pad record, giving 12 bytes reinterpreted as exactly
three 32-bit words. -/
theorem claim2_profile_serializer :
    ∀ mode : Mode,
      (((ProfileSerializer.new mode).update_channels Channel.ONE
          (some 0x12345678) none none).bind ProfileSerializer.finalize) =
        some [0x00, mode.bits ||| 0x10, 0x04, 0x12, 0x34, 0x56, 0x78,
          0x07, 0x00, 0x00, 0x00, mode.bits] ∧
      ((((ProfileSerializer.new mode).update_channels Channel.ONE
          (some 0x12345678) none none).bind ProfileSerializer.finalize).map
          (fun b => (toWordsLE b).length)) = some 3 := by
  intro mode
  cases mode <;> exact ⟨rfl, rfl⟩

/-- C9 amended: add_write reports no error value at all; whenever a record
does not fit the 32-byte buffer (cursor + 1 address byte + payload length
exceeds 32) the Rust slice indexing panics (modelled none), so the write
never silently runs past the buffer and never yields a recoverable
error. -/
theorem claim9_add_write_overflow :
    ∀ (ps : ProfileSerializer) (reg : Register) (v : List ℕ),
      (ps.add_write reg v = none ↔ 32 < ps.index + 1 + v.length) := by
  intro ps reg v
  unfold ProfileSerializer.add_write
  split_ifs with h1 h2 h3
  · exact iff_of_true rfl (by omega)
  · exact iff_of_true rfl (by omega)
  · exact iff_of_true rfl (by omega)
  · exact iff_of_false (by simp) (by omega)

/-- C9 counterexample: a batch of three full channel updates (14 bytes of
records each) exceeds the 32-byte buffer and the third update panics
(modelled none) instead of performing a silent out-of-bounds write and
completing. -/
theorem claim9_counterexample :
    ((((ProfileSerializer.new .FourBitSerial).update_channels Channel.ALL
        (some 0) (some 0) (some 0)).bind
      fun ps => ps.update_channels Channel.ALL (some 0) (some 0) (some 0)).bind
      fun ps => ps.update_channels Channel.ALL (some 0) (some 0) (some 0)) =
    none := rfl

end AD9959

namespace AD9959

/-- Head of a nonempty list via getD. -/
theorem getD0 (x : ℕ) (l : List ℕ) (d : ℕ) : (x :: l).getD 0 d = x := rfl

/-- Setting the high nibble of any byte to 0xF gives high nibble 0xF. -/
theorem setBitRange44_15 (w : ℕ) :
    setBitRange 4 4 w 15 = (w &&& 15) ||| 240 := by
  unfold setBitRange
  rw [(by decide : (0xFF ^^^ (((1 <<< 4) - 1) <<< 4)) = 15),
    (by decide : ((15 % (1 <<< 4)) <<< 4) = 240)]

/-- Reading back the high nibble after setting it to 0xF yields 0xF. -/
theorem selfTestBit1 (w : ℕ) :
    getBitRange 4 4 (setBitRange 4 4 w 15) = 15 := by
  rw [setBitRange44_15]
  have h4 : w &&& 15 < 16 := Nat.lt_succ_of_le Nat.and_le_right
  exact (by decide :
    ∀ x, x < 16 → getBitRange 4 4 (x ||| 240) = 15) _ h4

/-- Reading back the high nibble after setting it to 0xF and then to 0
yields 0. -/
theorem selfTestBit2 (w : ℕ) :
    getBitRange 4 4 (setBitRange 4 4 (setBitRange 4 4 w 15) 0) = 0 := by
  rw [setBitRange44_15]
  have h4 : w &&& 15 < 16 := Nat.lt_succ_of_le Nat.and_le_right
  exact (by decide :
    ∀ x, x < 16 →
      getBitRange 4 4 (setBitRange 4 4 (x ||| 240) 0) = 0) _ h4

/-- C5: against a transport that faithfully echoes writes, self_test
returns Ok true and leaves the CSR register equal to its pre-call value,
for every starting CSR byte; and against any transport whatsoever the
result is Ok true, Ok false (logical mismatch) or the Interface error,
never another error kind. -/
theorem claim5_self_test :
    (∀ (s0 : EchoState) (v : ℕ),
      ∃ s1, self_test echoIfc (echoUpd s0 Register.CSR.addr [v]) =
          (s1, .ok true) ∧
        s1 Register.CSR.addr = [v]) ∧
    (∀ (σ ε : Type) (I : Interface σ ε) (s : σ),
      (∃ s1, self_test I s = (s1, .ok true)) ∨
      (∃ s1, self_test I s = (s1, .ok false)) ∨
      (∃ s1, self_test I s = (s1, .error .Interface))) := by
  constructor
  · intro s0 v
    refine ⟨echoUpd (echoUpd (echoUpd (echoUpd s0 Register.CSR.addr [v])
        Register.CSR.addr [setBitRange 4 4 v 15]) Register.CSR.addr
        [setBitRange 4 4 (setBitRange 4 4 v 15) 0]) Register.CSR.addr [v],
      ?_, rfl⟩
    unfold self_test ifcRead ifcWrite echoIfc
    simp only [Register.addr, echoUpd, getD0, if_pos rfl, eq_self_iff_true,
      if_true, ite_true]
    rw [if_neg (by simp [selfTestBit1] : ¬getBitRange 4 4
      (setBitRange 4 4 v 15) ≠ 15)]
    rw [if_neg (by simp [selfTestBit2] : ¬getBitRange 4 4
      (setBitRange 4 4 (setBitRange 4 4 v 15) 0) ≠ 0)]
  · intro σ ε I s
    unfold self_test ifcRead ifcWrite
    rcases h1 : I.read s Register.CSR.addr 1 with ⟨s1, r1⟩
    rcases r1 with e1 | d1
    · simp only [h1]
      exact Or.inr (Or.inr ⟨s1, rfl⟩)
    · simp only [h1]
      rcases h2 : I.write s1 Register.CSR.addr
          [setBitRange 4 4 (d1.getD 0 0) 15] with ⟨s2, r2⟩
      rcases r2 with e2 | u2
      · simp only [h2]
        exact Or.inr (Or.inr ⟨s2, rfl⟩)
      · simp only [h2]
        rcases h3 : I.read s2 Register.CSR.addr 1 with ⟨s3, r3⟩
        rcases r3 with e3 | d3
        · simp only [h3]
          exact Or.inr (Or.inr ⟨s3, rfl⟩)
        · simp only [h3]
          by_cases hc1 : getBitRange 4 4 (d3.getD 0 0) ≠ 15
          · rw [if_pos hc1]
            exact Or.inr (Or.inl ⟨s3, rfl⟩)
          · rw [if_neg hc1]
            rcases h4 : I.write s3 Register.CSR.addr
                [setBitRange 4 4 (d3.getD 0 0) 0] with ⟨s4, r4⟩
            rcases r4 with e4 | u4
            · simp only [h4]
              exact Or.inr (Or.inr ⟨s4, rfl⟩)
            · simp only [h4]
              rcases h5 : I.read s4 Register.CSR.addr 1 with ⟨s5, r5⟩
              rcases r5 with e5 | d5
              · simp only [h5]
                exact Or.inr (Or.inr ⟨s5, rfl⟩)
              · simp only [h5]
                by_cases hc2 : getBitRange 4 4 (d5.getD 0 0) ≠ 0
                · rw [if_pos hc2]
                  exact Or.inr (Or.inl ⟨s5, rfl⟩)
                · rw [if_neg hc2]
                  rcases h6 : I.write s5 Register.CSR.addr [d1.getD 0 0]
                      with ⟨s6, r6⟩
                  rcases r6 with e6 | u6
                  · simp only [h6]
                    exact Or.inr (Or.inr ⟨s6, rfl⟩)
                  · simp only [h6]
                    exact Or.inl ⟨s6, rfl⟩

/-- C5 witness: the echo statement applied with base store empty and
starting CSR byte 0xA6, and the shape statement applied to the echo
transport at that store. -/
theorem claim5_witness :
    (∃ s1, self_test echoIfc
        (echoUpd (fun _ => []) Register.CSR.addr [0xA6]) =
        (s1, .ok true) ∧
      s1 Register.CSR.addr = [0xA6]) ∧
    ((∃ s1, self_test echoIfc (fun _ => ([] : List ℕ)) = (s1, .ok true)) ∨
      (∃ s1, self_test echoIfc (fun _ => ([] : List ℕ)) = (s1, .ok false)) ∨
      (∃ s1, self_test echoIfc (fun _ => ([] : List ℕ)) =
        (s1, .error .Interface))) :=
  ⟨claim5_self_test.1 (fun _ => []) 0xA6,
    claim5_self_test.2 EchoState Empty echoIfc (fun _ => [])⟩

end AD9959

namespace AD9959

/-- C6: over the echoing register-store transport, a successful
modify_channel leaves CSR holding exactly mode-bits or-ed with the target
channel flags (the previous channel set is not restored), while a
successful read_channel leaves CSR equal to its value before the call. -/
theorem claim6_channel_multiplex :
    (∀ (d : Ad9959) (s : EchoState) (ch : ℕ) (reg : Register)
        (data : List ℕ), reg.addr ≠ Register.CSR.addr →
      ∃ s1, modify_channel echoIfc d s ch reg data = (s1, .ok ()) ∧
        s1 Register.CSR.addr = [d.communication_mode.bits ||| ch]) ∧
    (∀ (d : Ad9959) (s : EchoState) (ch : ℕ) (reg : Register) (n : ℕ),
        reg.addr ≠ Register.CSR.addr →
      ∃ s1 out, read_channel echoIfc d s ch reg n = (s1, .ok out) ∧
        s1 Register.CSR.addr = s Register.CSR.addr) := by
  constructor
  · intro d s ch reg data hreg
    refine ⟨echoUpd (echoUpd s Register.CSR.addr
        [d.communication_mode.bits ||| ch]) reg.addr data, ?_, ?_⟩
    · unfold modify_channel ifcWrite echoIfc
      rfl
    · unfold echoUpd
      rw [if_neg (fun h => hreg h.symm)]
      rw [if_pos rfl]
  · intro d s ch reg n hreg
    refine ⟨echoUpd (echoUpd s Register.CSR.addr
          [d.communication_mode.bits ||| ch]) Register.CSR.addr
          (s Register.CSR.addr),
        (echoUpd s Register.CSR.addr
          [d.communication_mode.bits ||| ch]) reg.addr, ?_, ?_⟩
    · unfold read_channel ifcRead ifcWrite echoIfc
      rfl
    · unfold echoUpd
      rw [if_pos rfl]

/-- C6 witness: channel one, register CFTW0, over a store holding 0xF6 in
CSR (all channels previously enabled under four-bit mode). -/
theorem claim6_witness :
    (∃ s1, modify_channel echoIfc
        ⟨25000000, 4, .FourBitSerial⟩
        (echoUpd (fun _ => []) Register.CSR.addr [0xF6])
        Channel.ONE Register.CFTW0 [0x12, 0x34, 0x56, 0x78] =
          (s1, .ok ()) ∧
      s1 Register.CSR.addr =
        [(Mode.FourBitSerial).bits ||| Channel.ONE]) ∧
    (∃ s1 out, read_channel echoIfc
        ⟨25000000, 4, .FourBitSerial⟩
        (echoUpd (fun _ => []) Register.CSR.addr [0xF6])
        Channel.ONE Register.CFTW0 4 = (s1, .ok out) ∧
      s1 Register.CSR.addr =
        (echoUpd (fun _ => ([] : List ℕ)) Register.CSR.addr [0xF6])
          Register.CSR.addr) :=
  ⟨claim6_channel_multiplex.1 ⟨25000000, 4, .FourBitSerial⟩
      (echoUpd (fun _ => []) Register.CSR.addr [0xF6])
      Channel.ONE Register.CFTW0 [0x12, 0x34, 0x56, 0x78] (by decide),
    claim6_channel_multiplex.2 ⟨25000000, 4, .FourBitSerial⟩
      (echoUpd (fun _ => []) Register.CSR.addr [0xF6])
      Channel.ONE Register.CFTW0 4 (by decide)⟩

/-- C8: during construction, with all pins and transport operations
succeeding but the CSR read-back returning a byte that differs from the
written value (all channels enabled under the desired mode), the
constructor fails with exactly Check; with a failing reset pin operation
it fails with exactly Pin, whatever the transport does. -/
theorem claim8_new_fault_injection :
    (∀ (mode : Mode) (b : ℕ) (rcf : ℚ) (m : ℕ),
        b ≠ Channel.ALL ||| mode.bits →
      new (constReadIfc b) () okPin () okPin () mode rcf m =
        .error .Check) ∧
    (∀ (σ ε : Type) (I : Interface σ ε) (s : σ) (mode : Mode) (rcf : ℚ)
        (m : ℕ),
      new I s failHighPin () okPin () mode rcf m = .error .Pin) ∧
    (∀ (σ ε : Type) (I : Interface σ ε) (s : σ) (mode : Mode) (rcf : ℚ)
        (m : ℕ),
      new I s failLowPin () okPin () mode rcf m = .error .Pin) := by
  refine ⟨?_, fun σ ε I s mode rcf m => rfl, fun σ ε I s mode rcf m => rfl⟩
  intro mode b rcf m hb
  unfold new ifcWrite ifcRead constReadIfc okPin
  simp only [List.replicate, getD0]
  rw [if_pos hb]

/-- C8 witness: the Check statement at four-bit mode with read-back byte
0, and the Pin statements instantiated at the echoing transport. -/
theorem claim8_witness :
    new (constReadIfc 0) () okPin () okPin () Mode.FourBitSerial
        25000000 4 = .error .Check ∧
    new echoIfc (fun _ => ([] : List ℕ)) failHighPin () okPin ()
        Mode.FourBitSerial 25000000 4 = .error .Pin ∧
    new echoIfc (fun _ => ([] : List ℕ)) failLowPin () okPin ()
        Mode.FourBitSerial 25000000 4 = .error .Pin :=
  ⟨claim8_new_fault_injection.1 Mode.FourBitSerial 0 25000000 4 (by decide),
    claim8_new_fault_injection.2.1 EchoState Empty echoIfc (fun _ => [])
      Mode.FourBitSerial 25000000 4,
    claim8_new_fault_injection.2.2 EchoState Empty echoIfc (fun _ => [])
      Mode.FourBitSerial 25000000 4⟩

/-- C10: for clocking arguments accepted by validate_clocking, if the FR1
read or the FR1 write fails, configure_system_clock returns the Interface
error with the stored reference frequency already updated to the new
argument while the stored multiplier still holds its old value, so the
derived system clock frequency mixes the old multiplier with the new
reference. -/
theorem claim10_configure_system_clock_partial :
    ∀ (d : Ad9959) (rcf : ℚ) (m : ℕ) (f : ℚ),
      validate_clocking rcf m = .ok f →
      (∃ d1, configure_system_clock readFailIfc d () rcf m =
          (d1, (), .error .Interface) ∧
        d1.reference_clock_frequency = rcf ∧
        d1.system_clock_multiplier = d.system_clock_multiplier ∧
        system_clock_frequency d1 =
          (d.system_clock_multiplier : ℚ) * rcf) ∧
      (∃ d1, configure_system_clock writeFailIfc d () rcf m =
          (d1, (), .error .Interface) ∧
        d1.reference_clock_frequency = rcf ∧
        d1.system_clock_multiplier = d.system_clock_multiplier ∧
        system_clock_frequency d1 =
          (d.system_clock_multiplier : ℚ) * rcf) := by
  intro d rcf m f hv
  constructor
  · refine ⟨{ d with reference_clock_frequency := rcf }, ?_, rfl, rfl, rfl⟩
    unfold configure_system_clock ifcRead ifcWrite readFailIfc
    rw [hv]
  · refine ⟨{ d with reference_clock_frequency := rcf }, ?_, rfl, rfl, rfl⟩
    unfold configure_system_clock ifcRead ifcWrite writeFailIfc
    rw [hv]

/-- C10 witness: at reference 25 MHz and multiplier 4 (validated to
100 MHz), both failing-transport instantiations exhibit the mixed
state. -/
theorem claim10_witness :
    (∃ d1, configure_system_clock readFailIfc ⟨10000000, 17, .FourBitSerial⟩
        () 25000000 4 = (d1, (), .error .Interface) ∧
      d1.reference_clock_frequency = 25000000 ∧
      d1.system_clock_multiplier =
        (Ad9959.mk 10000000 17 .FourBitSerial).system_clock_multiplier ∧
      system_clock_frequency d1 =
        ((Ad9959.mk 10000000 17 .FourBitSerial).system_clock_multiplier : ℚ)
          * 25000000) ∧
    (∃ d1, configure_system_clock writeFailIfc
        ⟨10000000, 17, .FourBitSerial⟩ () 25000000 4 =
          (d1, (), .error .Interface) ∧
      d1.reference_clock_frequency = 25000000 ∧
      d1.system_clock_multiplier =
        (Ad9959.mk 10000000 17 .FourBitSerial).system_clock_multiplier ∧
      system_clock_frequency d1 =
        ((Ad9959.mk 10000000 17 .FourBitSerial).system_clock_multiplier : ℚ)
          * 25000000) :=
  claim10_configure_system_clock_partial ⟨10000000, 17, .FourBitSerial⟩
    25000000 4 100000000 (by norm_num [validate_clocking])

end AD9959

namespace Pounder

/-- Storing back the getD value (or-ed with zero) at any position is the
identity on lists. -/
theorem set_getD_or_zero : ∀ (l : List ℕ) (p : ℕ),
    l.set p (l.getD p 0 ||| 0) = l := by
  intro l
  induction l with
  | nil => intro p; rfl
  | cons a t ih =>
    intro p
    cases p with
    | zero => simp [List.set, List.getD]
    | succ n =>
      simp only [List.set, List.getD_cons_succ]
      rw [ih n]

/-- One bit-encoding iteration written as an unconditional store of an
if-then-else value. -/
theorem encodeNarrowStep_eq (b base bit : ℕ) (buf : List ℕ) :
    encodeNarrowStep b base buf bit =
      buf.set (base + (3 - bit / 2)) (buf.getD (base + (3 - bit / 2)) 0 |||
        (if b &&& (1 <<< bit) ≠ 0 then
          1 <<< (if bit % 2 ≠ 0 then 4 else 0) else 0)) := by
  show (if b &&& (1 <<< bit) ≠ 0 then
      buf.set (base + (3 - bit / 2)) (buf.getD (base + (3 - bit / 2)) 0 |||
        1 <<< (if bit % 2 ≠ 0 then 4 else 0))
    else buf) = _
  by_cases hc : b &&& (1 <<< bit) ≠ 0
  · rw [if_pos hc, if_pos hc]
  · rw [if_neg hc, if_neg hc]
    exact (set_getD_or_zero buf _).symm

/-- C3: a narrow-mode (single-bit-two-wire) QSPI write with address top
bit clear and at most 2 payload bytes succeeds and hands the peripheral
4 * (1 + len) expansion bytes out of the fixed 12-byte buffer whose 4-bit
transport symbols (nibbles, high first) are exactly the logical bits of
the address followed by the payload bytes, most significant bit first;
with more than 2 payload bytes it fails with Bounds before any
transmission. -/
theorem claim3_qspi_narrow_write :
    ∀ (streaming : Bool) (addr : ℕ) (data : List ℕ),
      addr &&& 0x80 = 0 →
      (data.length ≤ 2 →
        QspiInterface.write ⟨.SingleBitTwoWire, streaming⟩ addr data =
          .ok ((qspiEncode addr data).getD 0 0,
            ((qspiEncode addr data).drop 1).take
              ((1 + data.length) * 4 - 1)) ∧
        ((qspiEncode addr data).getD 0 0 ::
            ((qspiEncode addr data).drop 1).take
              ((1 + data.length) * 4 - 1)).length = 4 * (1 + data.length) ∧
        (qspiEncode addr data).length = 12 ∧
        nibbleSeq ((qspiEncode addr data).getD 0 0 ::
            ((qspiEncode addr data).drop 1).take
              ((1 + data.length) * 4 - 1)) =
          msbBitSeq (addr :: data)) ∧
      (2 < data.length →
        QspiInterface.write ⟨.SingleBitTwoWire, streaming⟩ addr data =
          .error .Bounds) := by
  intro streaming addr data ha
  have hr8 : List.range 8 = [0, 1, 2, 3, 4, 5, 6, 7] := by decide
  have hr1 : List.range 1 = [0] := by decide
  have hr2 : List.range 2 = [0, 1] := by decide
  constructor
  · intro hle
    have hw : QspiInterface.write ⟨.SingleBitTwoWire, streaming⟩ addr data =
        .ok ((qspiEncode addr data).getD 0 0,
          ((qspiEncode addr data).drop 1).take
            ((1 + data.length) * 4 - 1)) := by
      unfold QspiInterface.write
      rw [if_neg (not_not_intro ha),
        if_neg (by omega : ¬(12 - 4 < data.length * 4))]
    refine ⟨hw, ?_⟩
    rcases data with _ | ⟨x, _ | ⟨y, _ | ⟨z, rest⟩⟩⟩
    · refine ⟨?_, ?_, ?_⟩
      · simp [qspiEncode, encodeNarrowByte, encodeNarrowStep_eq, hr8,
          List.replicate, List.set, List.getD]
      · simp [qspiEncode, encodeNarrowByte, encodeNarrowStep_eq, hr8,
          List.replicate, List.set, List.getD]
      · simp [qspiEncode, encodeNarrowByte, encodeNarrowStep_eq, nibbleSeq,
          msbBitSeq, hr8, List.replicate, List.set, List.getD]
        repeat' constructor
        all_goals first
          | rfl
          | decide
          | (split_ifs <;> first | rfl | decide | omega)
    · refine ⟨?_, ?_, ?_⟩
      · simp [qspiEncode, encodeNarrowByte, encodeNarrowStep_eq, hr8, hr1,
          List.replicate, List.set, List.getD]
      · simp [qspiEncode, encodeNarrowByte, encodeNarrowStep_eq, hr8, hr1,
          List.replicate, List.set, List.getD]
      · simp [qspiEncode, encodeNarrowByte, encodeNarrowStep_eq, nibbleSeq,
          msbBitSeq, hr8, hr1, List.replicate, List.set, List.getD]
        repeat' constructor
        all_goals first
          | rfl
          | decide
          | (split_ifs <;> first | rfl | decide | omega)
    · refine ⟨?_, ?_, ?_⟩
      · simp [qspiEncode, encodeNarrowByte, encodeNarrowStep_eq, hr8, hr2,
          List.replicate, List.set, List.getD]
      · simp [qspiEncode, encodeNarrowByte, encodeNarrowStep_eq, hr8, hr2,
          List.replicate, List.set, List.getD]
      · simp [qspiEncode, encodeNarrowByte, encodeNarrowStep_eq, nibbleSeq,
          msbBitSeq, hr8, hr2, List.replicate, List.set, List.getD]
        repeat' constructor
        all_goals first
          | rfl
          | decide
          | (split_ifs <;> first | rfl | decide | omega)
    · exfalso
      simp only [List.length_cons] at hle
      omega
  · intro hgt
    unfold QspiInterface.write
    rw [if_neg (not_not_intro ha),
      if_pos (by omega : 12 - 4 < data.length * 4)]

/-- C3 witness: a one-byte narrow-mode write at address 4 with payload
byte 0x12 transmits 8 expansion bytes whose nibbles are the bits of the
address and payload, and a three-byte write fails with Bounds. -/
theorem claim3_witness :
    (QspiInterface.write ⟨.SingleBitTwoWire, false⟩ 4 [0x12] =
        .ok ((qspiEncode 4 [0x12]).getD 0 0,
          ((qspiEncode 4 [0x12]).drop 1).take
            ((1 + [(0x12 : ℕ)].length) * 4 - 1)) ∧
      ((qspiEncode 4 [0x12]).getD 0 0 ::
          ((qspiEncode 4 [0x12]).drop 1).take
            ((1 + [(0x12 : ℕ)].length) * 4 - 1)).length =
        4 * (1 + [(0x12 : ℕ)].length) ∧
      (qspiEncode 4 [0x12]).length = 12 ∧
      nibbleSeq ((qspiEncode 4 [0x12]).getD 0 0 ::
          ((qspiEncode 4 [0x12]).drop 1).take
            ((1 + [(0x12 : ℕ)].length) * 4 - 1)) =
        msbBitSeq (4 :: [0x12])) ∧
    QspiInterface.write ⟨.SingleBitTwoWire, false⟩ 4 [1, 2, 3] =
      .error .Bounds :=
  ⟨(claim3_qspi_narrow_write false 4 [0x12] (by decide)).1 (by decide),
    (claim3_qspi_narrow_write false 4 [1, 2, 3] (by decide)).2 (by decide)⟩

end Pounder
